import Mathlib

/- Shallow embedding of src/main.rs (test-psbt): a marketplace-style PSBT flow that
   sells one inscribed UTXO for a fixed price.  Values are satoshi amounts as Nat;
   txids, scripts and addresses are abstract Nat identifiers, with 0 standing for the
   empty script.  External RPC effects (wallet queries, the inscription oracle,
   wallet signing, finalize and broadcast) are modelled by an explicit environment
   record: the wallet signing calls are external collaborators, so the functions
   below return the artifacts assembled and handed to them.  A Rust panic (u64
   subtraction underflow, Vec indexing out of bounds, Option unwrap on None, a
   failed Psbt construction) is modelled as the result none. -/

namespace TestPsbt

/-- Reference to a previous transaction output (bitcoin OutPoint). -/
structure OutPoint where
  txid : Nat
  vout : Nat
deriving DecidableEq

/-- Transaction input (bitcoin TxIn); scripts are abstract Nat identifiers. -/
structure TxIn where
  previous_output : OutPoint
  script_sig : Nat
  sequence : Nat
  witness : List Nat
deriving DecidableEq

/-- Model of Sequence::MAX. -/
def SEQUENCE_MAX : Nat := 4294967295

/-- Transaction output (bitcoin TxOut): value in satoshi plus a locking script. -/
structure TxOut where
  value : Nat
  script_pubkey : Nat
deriving DecidableEq

/-- Transaction, as in rust-bitcoin. -/
structure Transaction where
  version : Nat
  lock_time : Nat
  input : List TxIn
  output : List TxOut
deriving DecidableEq

/-- Per-input PSBT metadata: exactly the fields src/main.rs reads or writes
    (non_witness_utxo, sighash_type) plus the two fields Psbt::extract_tx reads. -/
structure PsbtInput where
  non_witness_utxo : Option Transaction := none
  sighash_type : Option Nat := none
  final_script_sig : Option Nat := none
  final_script_witness : Option (List Nat) := none
deriving DecidableEq

/-- Default (all-empty) PSBT input metadata. -/
def PsbtInput.empty : PsbtInput := {}

/-- Partially signed transaction: unsigned skeleton plus per-input metadata. -/
structure Psbt where
  unsigned_tx : Transaction
  inputs : List PsbtInput
deriving DecidableEq

/-- Psbt::from_unsigned_tx: succeeds only when every input has an empty script_sig
    and an empty witness (rust-bitcoin returns an error otherwise, which the code
    unwraps, so failure is a panic, modelled as none). -/
def Psbt.from_unsigned_tx (t : Transaction) : Option Psbt :=
  if t.input.all (fun i => i.script_sig == 0 && i.witness.isEmpty) then
    some { unsigned_tx := t, inputs := t.input.map (fun _ => PsbtInput.empty) }
  else
    none

/-- Psbt::extract_tx: the unsigned skeleton with each input taking its script_sig
    and witness from the final fields of the corresponding PSBT input (defaulting
    to empty where absent). -/
def Psbt.extract_tx (p : Psbt) : Transaction :=
  { p.unsigned_tx with
    input := (p.unsigned_tx.input.zip p.inputs).map
      (fun q => { q.1 with
                  script_sig := q.2.final_script_sig.getD 0,
                  witness := q.2.final_script_witness.getD [] }) }

/-- Wallet list_unspent result entry: the fields src/main.rs uses. -/
structure ListUnspentResultEntry where
  txid : Nat
  vout : Nat
  address : Option Nat
  amount : Nat
deriving DecidableEq

/-- Address::script_pubkey, as an injection of address ids into script ids that
    avoids 0, the empty script. -/
def addressScript (a : Nat) : Nat := a + 1

/-- Environment of external effects seen by the buyer flow: the buyer wallet
    balance, the buyer list_unspent snapshot, the inscription oracle, raw
    transaction lookup by txid, the list_unspent snapshot re-queried after the
    dummy-creation broadcast, and the configured marketplace address. -/
structure Env where
  balance : Nat
  unspent : List ListUnspentResultEntry
  inscriptionOracle : OutPoint → Bool
  rawTx : Nat → Transaction
  unspentAfterDummy : List ListUnspentResultEntry
  marketPlaceAddress : Nat

/-- Fixed sale price in satoshi (const PRICE). -/
def PRICE : Nat := 1900

/-- Fixed marketplace fee in satoshi (const SERVICE_FEE). -/
def SERVICE_FEE : Nat := 1000

/-- Required payment threshold from create_buyer_psbt line 190. -/
def required_payment_value : Nat := PRICE + SERVICE_FEE + 1000 + 180 * 2 + 3 * 34 + 10

/-- is_utxo_inscription: queries the external explorer for txid:vout. -/
def is_utxo_inscription (env : Env) (utxo : ListUnspentResultEntry) : Bool :=
  env.inscriptionOracle { txid := utxo.txid, vout := utxo.vout }

/-- Stable ascending sort by amount, modelling Vec::sort_by_key(|x| x.amount).
    Rust sort_by_key is stable, and all stable sorts by the same key produce the
    identical list, so insertion sort is a faithful model. -/
def sortByAmount (l : List ListUnspentResultEntry) : List ListUnspentResultEntry :=
  List.insertionSort (fun a b => a.amount ≤ b.amount) l

/-- get_buyer_spendable_utxos: unspent outputs with inscription holders removed,
    sorted ascending by amount (sort_by_key). -/
def get_buyer_spendable_utxos (env : Env) : List ListUnspentResultEntry :=
  sortByAmount (env.unspent.filter (fun x => is_utxo_inscription env x == false))

/-- Dummy-creation transaction of retrieve_dummy_utxo lines 308-331: one input
    spending the source utxo u0, a dust output of 1000 and a change output of
    u0.amount - 1000 - 258, both to the script of the given address. -/
def dummyCreationTx (u0 : ListUnspentResultEntry) (dummy_address : Nat) : Transaction :=
  { version := 2,
    lock_time := 0,
    input := [{ previous_output := { txid := u0.txid, vout := u0.vout },
                script_sig := 0,
                sequence := SEQUENCE_MAX,
                witness := [] }],
    output := [{ value := 1000, script_pubkey := addressScript dummy_address },
               { value := u0.amount - 1000 - 258,
                 script_pubkey := addressScript dummy_address }] }

/-- retrieve_dummy_utxo.  Returns the chosen dummy (separator) utxo together with
    the broadcast dummy-creation transaction when the creation path ran (none when
    an existing dust utxo was reused).  The outer none models a panic: indexing
    utxos[0] on an empty list, unwrapping a missing address, the u64 underflow in
    utxos[0].amount - 1000 - 258, or indexing the re-queried dust list at 0 when
    it is empty. -/
def retrieve_dummy_utxo (env : Env) (utxos : List ListUnspentResultEntry) :
    Option (ListUnspentResultEntry × Option Transaction) :=
  let potential_dummy_utxos := utxos.filter (fun utxo => utxo.amount ≤ 1000)
  if potential_dummy_utxos.length = 0 then
    match utxos.head? with
    | none => none
    | some u0 =>
      match u0.address with
      | none => none
      | some dummy_address =>
        if u0.amount < 1000 + 258 then none
        else
          let dummy_tx : Transaction := dummyCreationTx u0 dummy_address
          match Psbt.from_unsigned_tx dummy_tx with
          | none => none
          | some _ =>
            let sorted_utxos := sortByAmount env.unspentAfterDummy
            let potential2 := sorted_utxos.filter (fun utxo => utxo.amount ≤ 1000)
            match potential2.head? with
            | none => none
            | some d => some (d, some dummy_tx)
  else
    match potential_dummy_utxos.head? with
    | none => none
    | some d => some (d, none)

/-- Payment coin-selection loop of create_buyer_psbt lines 193-208: push each
    candidate, accumulate its amount, break once the accumulated value reaches
    req. -/
def select_payment (req : Nat) : List ListUnspentResultEntry → Nat →
    List ListUnspentResultEntry
  | [], _ => []
  | utxo :: rest, acc =>
    if req ≤ acc + utxo.amount then [utxo]
    else utxo :: select_payment req rest (acc + utxo.amount)

/-- Sum of the amounts of a utxo list. -/
def sumAmounts (l : List ListUnspentResultEntry) : Nat :=
  (l.map (fun u => u.amount)).sum

/-- Result of create_buyer_psbt: the empty-string sentinel (abandoned) or the
    assembled PSBT handed to the buyer wallet for signing. -/
inductive BuyerOutcome where
  | abandoned : BuyerOutcome
  | assembled : Psbt → BuyerOutcome
deriving DecidableEq

/-- A run of create_buyer_psbt: its outcome plus the dummy-creation transaction
    broadcast along the way, if any. -/
structure BuyerRun where
  outcome : BuyerOutcome
  dummyBroadcast : Option Transaction
deriving DecidableEq

/-- Transaction input built from a selected payment utxo (loop line 195). -/
def paymentTxIn (u : ListUnspentResultEntry) : TxIn :=
  { previous_output := { txid := u.txid, vout := u.vout },
    script_sig := 0,
    sequence := SEQUENCE_MAX,
    witness := [] }

/-- Unsigned purchase transaction of create_buyer_psbt lines 158-233: inputs are
    the dummy (separator) input, the seller input copied from the extracted seller
    transaction, then the selected payment inputs; outputs are the recombined
    inscription-plus-dummy value, the seller output copied verbatim, the
    marketplace fee, the fixed 1000 allowance, and the remaining change. -/
def purchaseTx (marketAddr : Nat) (dummy_utxo : ListUnspentResultEntry)
    (buyer_address : Nat) (seller_in : TxIn) (seller_out : TxOut)
    (inscription_tx_out : TxOut) (selected : List ListUnspentResultEntry)
    (payment_value : Nat) : Transaction :=
  { version := 2,
    lock_time := 0,
    input :=
      [{ previous_output := { txid := dummy_utxo.txid, vout := dummy_utxo.vout },
         script_sig := 0,
         sequence := SEQUENCE_MAX,
         witness := [] },
       { previous_output := seller_in.previous_output,
         script_sig := seller_in.script_sig,
         sequence := seller_in.sequence,
         witness := [] }] ++ selected.map paymentTxIn,
    output :=
      [{ value := inscription_tx_out.value + dummy_utxo.amount,
         script_pubkey := addressScript buyer_address },
       seller_out,
       { value := SERVICE_FEE, script_pubkey := addressScript marketAddr },
       { value := 1000, script_pubkey := addressScript buyer_address },
       { value := payment_value - required_payment_value,
         script_pubkey := addressScript buyer_address }] }

/-- PSBT input metadata assembly of create_buyer_psbt lines 237-251: position 0
    gets the dummy previous transaction, position 1 is overwritten with the seller
    PSBT input, and each position i+2 gets the previous transaction of the i-th
    selected payment utxo. -/
def assembledPsbtInputs (env : Env) (dummy_utxo : ListUnspentResultEntry)
    (seller_psbt_in : PsbtInput) (selected : List ListUnspentResultEntry)
    (base : List PsbtInput) : List PsbtInput :=
  let inputs1 := base.set 0
    { PsbtInput.empty with non_witness_utxo := some (env.rawTx dummy_utxo.txid) }
  let inputs2 := inputs1.set 1 seller_psbt_in
  selected.enum.foldl
    (fun acc p => acc.set (p.1 + 2)
      { PsbtInput.empty with non_witness_utxo := some (env.rawTx p.2.txid) })
    inputs2

/-- create_buyer_psbt.  Follows src/main.rs lines 124-258; none models a panic,
    some with outcome abandoned models the empty-string sentinel returns, and
    some with outcome assembled carries the PSBT assembled and handed to the
    buyer wallet (the external signing call itself is outside the model). -/
def create_buyer_psbt (env : Env) (seller_psbt : Psbt) (inscription_tx_out : TxOut) :
    Option BuyerRun :=
  if env.balance < PRICE then
    some { outcome := BuyerOutcome.abandoned, dummyBroadcast := none }
  else
    let sorted_spendable_utxos := get_buyer_spendable_utxos env
    if sorted_spendable_utxos.length = 0 then
      some { outcome := BuyerOutcome.abandoned, dummyBroadcast := none }
    else
      match retrieve_dummy_utxo env sorted_spendable_utxos with
      | none => none
      | some (dummy_utxo, bcast) =>
        match dummy_utxo.address with
        | none => none
        | some buyer_address =>
          let seller_tx := seller_psbt.extract_tx
          match seller_tx.input.head?, seller_tx.output.head? with
          | some seller_in, some seller_out =>
            let reversed_sorted_utxos := sorted_spendable_utxos.reverse
            let selected_payment_utxos :=
              select_payment required_payment_value reversed_sorted_utxos 0
            let payment_utxos_value := sumAmounts selected_payment_utxos
            if payment_utxos_value < PRICE then
              some { outcome := BuyerOutcome.abandoned, dummyBroadcast := bcast }
            else if payment_utxos_value < required_payment_value then
              none
            else
              let purchase_tx : Transaction :=
                purchaseTx env.marketPlaceAddress dummy_utxo buyer_address seller_in
                  seller_out inscription_tx_out selected_payment_utxos
                  payment_utxos_value
              match Psbt.from_unsigned_tx purchase_tx, seller_psbt.inputs.head? with
              | some buyer_psbt0, some seller_psbt_in =>
                let inputs3 := assembledPsbtInputs env dummy_utxo seller_psbt_in
                  selected_payment_utxos buyer_psbt0.inputs
                some { outcome := BuyerOutcome.assembled { buyer_psbt0 with inputs := inputs3 },
                       dummyBroadcast := bcast }
              | _, _ => none
          | _, _ => none

/- ## Helper lemmas about coin selection -/

/-- Helper: the selection loop returns an initial segment of its candidate list. -/
theorem select_payment_take (req : Nat) (l : List ListUnspentResultEntry) (acc : Nat) :
    l.take (select_payment req l acc).length = select_payment req l acc := by
  induction l generalizing acc with
  | nil => rfl
  | cons u rest ih =>
    by_cases h : req ≤ acc + u.amount
    · simp [select_payment, h]
    · simp [select_payment, h, ih]

/-- Helper: the selection loop either accumulates enough value to reach the
    threshold or consumes the whole candidate list. -/
theorem select_payment_reaches (req : Nat) (l : List ListUnspentResultEntry) (acc : Nat) :
    req ≤ acc + sumAmounts (select_payment req l acc) ∨ select_payment req l acc = l := by
  induction l generalizing acc with
  | nil => exact Or.inr rfl
  | cons u rest ih =>
    by_cases h : req ≤ acc + u.amount
    · left
      simp only [select_payment, if_pos h, sumAmounts, List.map_cons, List.map_nil,
        List.sum_cons, List.sum_nil]
      omega
    · rcases ih (acc + u.amount) with h2 | h2
      · left
        simp only [select_payment, if_neg h, sumAmounts, List.map_cons, List.sum_cons]
        simp only [sumAmounts] at h2
        omega
      · right
        simp [select_payment, h, h2]

/-- Helper: under a positive remaining requirement, no initial segment shorter
    than the selection reaches the threshold. -/
theorem select_payment_min (req : Nat) (l : List ListUnspentResultEntry) (acc n : Nat)
    (hacc : acc < req) (h : req ≤ acc + sumAmounts (l.take n)) :
    (select_payment req l acc).length ≤ n := by
  induction l generalizing acc n with
  | nil => simp [select_payment]
  | cons u rest ih =>
    cases n with
    | zero =>
      simp only [List.take_zero, sumAmounts, List.map_nil, List.sum_nil] at h
      omega
    | succ m =>
      by_cases hle : req ≤ acc + u.amount
      · simp only [select_payment, if_pos hle, List.length_cons, List.length_nil]
        omega
      · have h2 : req ≤ (acc + u.amount) + sumAmounts (rest.take m) := by
          simp only [List.take_succ_cons, sumAmounts, List.map_cons, List.sum_cons] at h
          simp only [sumAmounts]
          omega
        have h3 := ih (acc + u.amount) m (by omega) h2
        simp only [select_payment, if_neg hle, List.length_cons]
        omega

/-- Helper: the stable sort by amount produces a list that is pairwise ascending
    in amount. -/
theorem pairwise_sortByAmount (l : List ListUnspentResultEntry) :
    List.Pairwise (fun a b : ListUnspentResultEntry => a.amount ≤ b.amount)
      (sortByAmount l) := by
  haveI h1 : IsTotal ListUnspentResultEntry (fun a b => a.amount ≤ b.amount) :=
    ⟨fun a b => Nat.le_total a.amount b.amount⟩
  haveI h2 : IsTrans ListUnspentResultEntry (fun a b => a.amount ≤ b.amount) :=
    ⟨fun _ _ _ hab hbc => Nat.le_trans hab hbc⟩
  exact List.sorted_insertionSort _ l

/-- Helper: membership in the sorted list coincides with membership in the
    original list. -/
theorem mem_sortByAmount (l : List ListUnspentResultEntry) (u : ListUnspentResultEntry) :
    u ∈ sortByAmount l ↔ u ∈ l :=
  List.mem_insertionSort _

/-- Helper: the candidate list iterated by payment selection is sorted ascending
    by amount before reversal. -/
theorem pairwise_sorted_amounts (env : Env) :
    List.Pairwise (fun a b : ListUnspentResultEntry => a.amount ≤ b.amount)
      (get_buyer_spendable_utxos env) :=
  pairwise_sortByAmount _

/-- Helper: every element of the spendable candidate list is classified as a
    non-inscription output. -/
theorem mem_spendable_not_inscription (env : Env) (u : ListUnspentResultEntry)
    (h : u ∈ get_buyer_spendable_utxos env) : is_utxo_inscription env u = false := by
  unfold get_buyer_spendable_utxos at h
  rw [mem_sortByAmount] at h
  simpa using (List.mem_filter.mp h).2

/-- Helper: on a list sorted ascending by amount, the first dust entry (value at
    most 1000) is the head of the list itself whenever any dust entry exists. -/
theorem filter_dust_head_of_sorted (l : List ListUnspentResultEntry)
    (hs : List.Pairwise (fun a b : ListUnspentResultEntry => a.amount ≤ b.amount) l)
    (hne : l.filter (fun u => u.amount ≤ 1000) ≠ []) :
    (l.filter (fun u => u.amount ≤ 1000)).head? = l.head? := by
  cases l with
  | nil => simp at hne
  | cons x t =>
    by_cases hx : x.amount ≤ 1000
    · simp [List.filter_cons, hx]
    · exfalso
      apply hne
      rw [List.filter_eq_nil_iff]
      intro a ha
      rcases List.mem_cons.mp ha with rfl | ha2
      · simpa using hx
      · have := List.rel_of_pairwise_cons hs ha2
        simp only [decide_eq_true_eq]
        omega

/- ## Helper lemmas about PSBT assembly -/

/-- Helper: the metadata-filling fold writes only at positions 2 and above. -/
theorem foldl_set_low (g : Nat × ListUnspentResultEntry → PsbtInput)
    (l : List (Nat × ListUnspentResultEntry)) (base : List PsbtInput) (j : Nat)
    (hj : j < 2) :
    (l.foldl (fun acc p => acc.set (p.1 + 2) (g p)) base)[j]? = base[j]? := by
  induction l generalizing base with
  | nil => rfl
  | cons p t ih =>
    rw [List.foldl_cons, ih]
    exact List.getElem?_set_ne (by omega)

/-- Helper: position 1 of the assembled PSBT metadata is the seller PSBT input. -/
theorem assembledPsbtInputs_one (env : Env) (dummy_utxo : ListUnspentResultEntry)
    (seller_psbt_in : PsbtInput) (selected : List ListUnspentResultEntry)
    (base : List PsbtInput) (hlen : 1 < base.length) :
    (assembledPsbtInputs env dummy_utxo seller_psbt_in selected base)[1]? =
      some seller_psbt_in := by
  unfold assembledPsbtInputs
  rw [foldl_set_low _ _ _ 1 (by omega)]
  rw [List.getElem?_set_self]
  simpa using hlen

/-- Helper: Psbt::from_unsigned_tx succeeds on a transaction whose inputs all
    carry empty unlocking data. -/
theorem from_unsigned_tx_of_clean (t : Transaction)
    (h : ∀ i ∈ t.input, i.script_sig = 0 ∧ i.witness = []) :
    Psbt.from_unsigned_tx t =
      some { unsigned_tx := t, inputs := t.input.map (fun _ => PsbtInput.empty) } := by
  unfold Psbt.from_unsigned_tx
  rw [if_pos]
  rw [List.all_eq_true]
  intro i hi
  rcases h i hi with ⟨h1, h2⟩
  simp [h1, h2]

/-- Helper: all inputs of the purchase transaction carry empty unlocking data
    whenever the copied seller script_sig is empty. -/
theorem purchaseTx_inputs_clean (marketAddr : Nat) (dummy_utxo : ListUnspentResultEntry)
    (buyer_address : Nat) (seller_in : TxIn) (seller_out : TxOut)
    (inscription_tx_out : TxOut) (selected : List ListUnspentResultEntry)
    (payment_value : Nat) (hsig : seller_in.script_sig = 0) :
    ∀ i ∈ (purchaseTx marketAddr dummy_utxo buyer_address seller_in seller_out
        inscription_tx_out selected payment_value).input,
      i.script_sig = 0 ∧ i.witness = [] := by
  intro i hi
  unfold purchaseTx at hi
  simp only [List.cons_append, List.nil_append, List.mem_cons, List.mem_map] at hi
  rcases hi with rfl | rfl | ⟨u, hu, rfl⟩
  · exact ⟨rfl, rfl⟩
  · exact ⟨hsig, rfl⟩
  · exact ⟨rfl, rfl⟩

/-- Helper: the dummy-creation transaction has clean inputs. -/
theorem dummyCreationTx_clean (u0 : ListUnspentResultEntry) (a : Nat) :
    ∀ i ∈ (dummyCreationTx u0 a).input, i.script_sig = 0 ∧ i.witness = [] := by
  intro i hi
  simp only [dummyCreationTx, List.mem_cons, List.not_mem_nil, or_false] at hi
  subst hi
  exact ⟨rfl, rfl⟩

/-- Helper: with an existing dust candidate, retrieve_dummy_utxo returns the
    first dust candidate and broadcasts nothing. -/
theorem retrieve_dummy_utxo_dust (env : Env) (utxos : List ListUnspentResultEntry)
    (d : ListUnspentResultEntry)
    (hd : (utxos.filter (fun u => u.amount ≤ 1000)).head? = some d) :
    retrieve_dummy_utxo env utxos = some (d, none) := by
  have hne : utxos.filter (fun u => u.amount ≤ 1000) ≠ [] := by
    intro h0
    rw [h0] at hd
    simp at hd
  have hlen : ¬ (utxos.filter (fun u => u.amount ≤ 1000)).length = 0 := by
    rw [List.length_eq_zero]
    exact hne
  simp only [retrieve_dummy_utxo, hlen, if_false, hd]

/-- Helper: creation-path characterization of retrieve_dummy_utxo when no dust
    candidate exists. -/
theorem retrieve_dummy_utxo_creation (env : Env) (utxos : List ListUnspentResultEntry)
    (u0 : ListUnspentResultEntry) (a : Nat)
    (hfil : utxos.filter (fun u => u.amount ≤ 1000) = [])
    (hhead : utxos.head? = some u0)
    (haddr : u0.address = some a) :
    retrieve_dummy_utxo env utxos =
      if u0.amount < 1000 + 258 then none
      else
        ((sortByAmount env.unspentAfterDummy).filter
          (fun u => u.amount ≤ 1000)).head?.map
          (fun d => (d, some (dummyCreationTx u0 a))) := by
  have hfrom := from_unsigned_tx_of_clean (dummyCreationTx u0 a) (dummyCreationTx_clean u0 a)
  simp only [retrieve_dummy_utxo, hfil, List.length_nil, if_true, hhead, haddr, hfrom]
  by_cases hv : u0.amount < 1000 + 258
  · simp [hv]
  · simp only [hv, if_false]
    cases hh : ((sortByAmount env.unspentAfterDummy).filter
        (fun u => u.amount ≤ 1000)).head? with
    | none => simp
    | some d => simp

/-- Helper: full characterization of the successful (assembled) path of
    create_buyer_psbt. -/
theorem create_buyer_psbt_assembled (env : Env) (seller_psbt : Psbt)
    (inscription_tx_out : TxOut) (dummy_utxo : ListUnspentResultEntry)
    (bcast : Option Transaction) (buyer_address : Nat) (seller_in : TxIn)
    (seller_out : TxOut) (seller_psbt_in : PsbtInput)
    (sel : List ListUnspentResultEntry)
    (hbal : ¬ env.balance < PRICE)
    (hlen : ¬ (get_buyer_spendable_utxos env).length = 0)
    (hdummy : retrieve_dummy_utxo env (get_buyer_spendable_utxos env) =
      some (dummy_utxo, bcast))
    (haddr : dummy_utxo.address = some buyer_address)
    (hin : seller_psbt.extract_tx.input.head? = some seller_in)
    (hout : seller_psbt.extract_tx.output.head? = some seller_out)
    (hpin : seller_psbt.inputs.head? = some seller_psbt_in)
    (hsig : seller_in.script_sig = 0)
    (hsel : sel = select_payment required_payment_value
      (get_buyer_spendable_utxos env).reverse 0)
    (hpay : required_payment_value ≤ sumAmounts sel) :
    create_buyer_psbt env seller_psbt inscription_tx_out =
      some { outcome := BuyerOutcome.assembled
               { unsigned_tx := purchaseTx env.marketPlaceAddress dummy_utxo buyer_address
                   seller_in seller_out inscription_tx_out sel (sumAmounts sel),
                 inputs := assembledPsbtInputs env dummy_utxo seller_psbt_in sel
                   ((purchaseTx env.marketPlaceAddress dummy_utxo buyer_address
                     seller_in seller_out inscription_tx_out sel
                     (sumAmounts sel)).input.map (fun _ => PsbtInput.empty)) },
             dummyBroadcast := bcast } := by
  have hreq : required_payment_value = 4372 := rfl
  have hnp : ¬ sumAmounts sel < PRICE := by
    rw [hreq] at hpay
    have : PRICE = 1900 := rfl
    omega
  have hnp2 : ¬ sumAmounts sel < required_payment_value := Nat.not_lt.mpr hpay
  have hfrom := from_unsigned_tx_of_clean
    (purchaseTx env.marketPlaceAddress dummy_utxo buyer_address seller_in seller_out
      inscription_tx_out sel (sumAmounts sel))
    (purchaseTx_inputs_clean env.marketPlaceAddress dummy_utxo buyer_address seller_in
      seller_out inscription_tx_out sel (sumAmounts sel) hsig)
  simp only [create_buyer_psbt, hbal, hlen, hdummy, haddr, hin, hout, hpin,
    if_false, ← hsel, hnp, hnp2, hfrom]

/- ## Concrete fixtures for witnesses and counterexamples -/

/-- Fixture: a previous raw transaction returned by the modelled
    get_raw_transaction lookups. -/
def rawTxW : Transaction := { version := 2, lock_time := 0, input := [], output := [] }

/-- Fixture: a buyer utxo at vout 0 with the given txid, amount and address. -/
def mkUtxo (t v a : Nat) : ListUnspentResultEntry :=
  { txid := t, vout := 0, address := some a, amount := v }

/-- Fixture: a seller PSBT with one input (the inscribed outpoint 100:3) and one
    1900-satoshi output, whose input metadata carries sighash 0x83. -/
def sellerPsbtW : Psbt :=
  { unsigned_tx :=
      { version := 2, lock_time := 0,
        input := [{ previous_output := { txid := 100, vout := 3 }, script_sig := 0,
                    sequence := SEQUENCE_MAX, witness := [] }],
        output := [{ value := 1900, script_pubkey := 77 }] },
    inputs := [{ non_witness_utxo := some rawTxW, sighash_type := some 131 }] }

/-- Fixture: the extracted seller input of sellerPsbtW. -/
def sellerInW : TxIn :=
  { previous_output := { txid := 100, vout := 3 }, script_sig := 0,
    sequence := SEQUENCE_MAX, witness := [] }

/-- Fixture: the seller output of sellerPsbtW. -/
def sellerOutW : TxOut := { value := 1900, script_pubkey := 77 }

/-- Fixture: the PSBT metadata of sellerPsbtW input 0. -/
def sellerPinW : PsbtInput := { non_witness_utxo := some rawTxW, sighash_type := some 131 }

/-- Fixture: the inscribed output being sold. -/
def inscriptionOutW : TxOut := { value := 12000, script_pubkey := 77 }

/-- Fixture: an environment with the given candidate utxos, balance 10000, no
    inscriptions, and marketplace address 50. -/
def envBase (us : List ListUnspentResultEntry) : Env :=
  { balance := 10000, unspent := us, inscriptionOracle := fun _ => false,
    rawTx := fun _ => rawTxW, unspentAfterDummy := [], marketPlaceAddress := 50 }

/- ## Claims -/

/-- Claim C8: when the buyer balance is below the price, or no non-inscription
    spendable output exists, create_buyer_psbt returns the empty sentinel
    (abandoned) before any separator creation or broadcast, without crashing. -/
theorem claim_C8 (env : Env) (seller_psbt : Psbt) (inscription_tx_out : TxOut)
    (h : env.balance < PRICE ∨ get_buyer_spendable_utxos env = []) :
    create_buyer_psbt env seller_psbt inscription_tx_out =
      some { outcome := BuyerOutcome.abandoned, dummyBroadcast := none } := by
  rcases h with h | h
  · simp [create_buyer_psbt, h]
  · by_cases hb : env.balance < PRICE
    · simp [create_buyer_psbt, hb]
    · simp [create_buyer_psbt, hb, h]

/-- Fixture environment for the C8 witness: zero balance, no utxos. -/
def envC8 : Env := { envBase [] with balance := 0 }

/-- Witness for claim C8 at a concrete zero-balance environment. -/
theorem claim_C8_witness :
    envC8.balance < PRICE
    ∧ create_buyer_psbt envC8 sellerPsbtW inscriptionOutW =
        some { outcome := BuyerOutcome.abandoned, dummyBroadcast := none } :=
  ⟨by decide, claim_C8 envC8 sellerPsbtW inscriptionOutW (Or.inl (by decide))⟩

/-- Claim C6: payment coin selection iterates the non-inscription candidate set
    in descending amount order, and the selected inputs are exactly the shortest
    initial segment of that order whose accumulated value reaches the required
    threshold, or all candidates when no initial segment reaches it. -/
theorem claim_C6 (env : Env) :
    List.Pairwise (fun a b : ListUnspentResultEntry => b.amount ≤ a.amount)
      (get_buyer_spendable_utxos env).reverse
    ∧ (∀ u ∈ select_payment required_payment_value
          (get_buyer_spendable_utxos env).reverse 0,
        is_utxo_inscription env u = false)
    ∧ (get_buyer_spendable_utxos env).reverse.take
          (select_payment required_payment_value
            (get_buyer_spendable_utxos env).reverse 0).length
        = select_payment required_payment_value (get_buyer_spendable_utxos env).reverse 0
    ∧ ((required_payment_value ≤ sumAmounts (select_payment required_payment_value
            (get_buyer_spendable_utxos env).reverse 0)
        ∧ ∀ n : Nat, required_payment_value ≤
            sumAmounts ((get_buyer_spendable_utxos env).reverse.take n) →
            (select_payment required_payment_value
              (get_buyer_spendable_utxos env).reverse 0).length ≤ n)
      ∨ (sumAmounts (select_payment required_payment_value
            (get_buyer_spendable_utxos env).reverse 0) < required_payment_value
        ∧ select_payment required_payment_value (get_buyer_spendable_utxos env).reverse 0
            = (get_buyer_spendable_utxos env).reverse)) := by
  refine ⟨?_, ?_, select_payment_take _ _ _, ?_⟩
  · rw [List.pairwise_reverse]
    exact pairwise_sorted_amounts env
  · intro u hu
    apply mem_spendable_not_inscription env u
    rw [← List.mem_reverse]
    rw [← select_payment_take required_payment_value
      (get_buyer_spendable_utxos env).reverse 0] at hu
    exact List.take_subset _ _ hu
  · by_cases hge : required_payment_value ≤ sumAmounts (select_payment
        required_payment_value (get_buyer_spendable_utxos env).reverse 0)
    · left
      refine ⟨hge, fun n hn => ?_⟩
      apply select_payment_min
      · decide
      · simpa using hn
    · right
      rcases select_payment_reaches required_payment_value
          (get_buyer_spendable_utxos env).reverse 0 with h2 | h2
      · exact absurd (by simpa using h2) hge
      · exact ⟨Nat.not_le.mp hge, h2⟩

/-- Fixture environment for the C6 and C3/C4 witnesses: candidates of 500, 3000
    and 5000 satoshi, matching the worked example of the specification. -/
def envC6 : Env := envBase [mkUtxo 1 500 7, mkUtxo 2 3000 7, mkUtxo 3 5000 7]

/-- Witness for claim C6: with candidates of 500, 3000 and 5000 satoshi, the
    selection picks exactly the single 5000-satoshi utxo. -/
theorem claim_C6_witness :
    select_payment required_payment_value (get_buyer_spendable_utxos envC6).reverse 0 =
      [mkUtxo 3 5000 7]
    ∧ (get_buyer_spendable_utxos envC6).reverse.take
          (select_payment required_payment_value
            (get_buyer_spendable_utxos envC6).reverse 0).length
        = select_payment required_payment_value (get_buyer_spendable_utxos envC6).reverse 0 :=
  ⟨by decide, (claim_C6 envC6).2.2.1⟩

/-- Claim C3: in every assembled purchase transaction whose payment total
    reaches the required threshold and whose seller output carries the fixed
    price, the sum of input values (separator value plus inscribed output value
    plus payment total) equals the sum of the five output values plus the
    constant implicit fee 180*2 + 3*34 + 10 = 472. -/
theorem claim_C3 (env : Env) (seller_psbt : Psbt) (inscription_tx_out : TxOut)
    (dummy_utxo : ListUnspentResultEntry) (bcast : Option Transaction)
    (buyer_address : Nat) (seller_in : TxIn) (seller_out : TxOut)
    (seller_psbt_in : PsbtInput) (sel : List ListUnspentResultEntry)
    (run : BuyerRun) (p : Psbt)
    (hbal : ¬ env.balance < PRICE)
    (hlen : ¬ (get_buyer_spendable_utxos env).length = 0)
    (hdummy : retrieve_dummy_utxo env (get_buyer_spendable_utxos env) =
      some (dummy_utxo, bcast))
    (haddr : dummy_utxo.address = some buyer_address)
    (hin : seller_psbt.extract_tx.input.head? = some seller_in)
    (hout : seller_psbt.extract_tx.output.head? = some seller_out)
    (hpin : seller_psbt.inputs.head? = some seller_psbt_in)
    (hsig : seller_in.script_sig = 0)
    (hsel : sel = select_payment required_payment_value
      (get_buyer_spendable_utxos env).reverse 0)
    (hpay : required_payment_value ≤ sumAmounts sel)
    (hsellval : seller_out.value = PRICE)
    (hrun : create_buyer_psbt env seller_psbt inscription_tx_out = some run)
    (hp : run.outcome = BuyerOutcome.assembled p) :
    p.unsigned_tx.output.length = 5
    ∧ dummy_utxo.amount + inscription_tx_out.value + sumAmounts sel =
        (p.unsigned_tx.output.map (fun o => o.value)).sum + (180 * 2 + 3 * 34 + 10) := by
  rw [create_buyer_psbt_assembled env seller_psbt inscription_tx_out dummy_utxo bcast
    buyer_address seller_in seller_out seller_psbt_in sel hbal hlen hdummy haddr hin
    hout hpin hsig hsel hpay] at hrun
  have hrun2 := Option.some_inj.mp hrun
  subst hrun2
  injection hp with hP
  subst hP
  constructor
  · simp [purchaseTx]
  · have hP2 : PRICE = 1900 := rfl
    have hS2 : SERVICE_FEE = 1000 := rfl
    have hR2 : required_payment_value = 4372 := rfl
    simp only [purchaseTx, List.map_cons, List.map_nil, List.sum_cons, List.sum_nil,
      hsellval]
    omega

/-- Fixture: the PSBT assembled by create_buyer_psbt in the envC6 scenario. -/
def pW : Psbt :=
  { unsigned_tx := purchaseTx 50 (mkUtxo 1 500 7) 7 sellerInW sellerOutW inscriptionOutW
      [mkUtxo 3 5000 7] (sumAmounts [mkUtxo 3 5000 7]),
    inputs := assembledPsbtInputs envC6 (mkUtxo 1 500 7) sellerPinW [mkUtxo 3 5000 7]
      ((purchaseTx 50 (mkUtxo 1 500 7) 7 sellerInW sellerOutW inscriptionOutW
        [mkUtxo 3 5000 7] (sumAmounts [mkUtxo 3 5000 7])).input.map
        (fun _ => PsbtInput.empty)) }

/-- Fixture: the run of create_buyer_psbt in the envC6 scenario. -/
def runW : BuyerRun := { outcome := BuyerOutcome.assembled pW, dummyBroadcast := none }

/-- Witness for claim C3 at the envC6 scenario. -/
theorem claim_C3_witness :
    pW.unsigned_tx.output.length = 5
    ∧ (mkUtxo 1 500 7).amount + inscriptionOutW.value + sumAmounts [mkUtxo 3 5000 7] =
        (pW.unsigned_tx.output.map (fun o => o.value)).sum + (180 * 2 + 3 * 34 + 10) :=
  claim_C3 envC6 sellerPsbtW inscriptionOutW (mkUtxo 1 500 7) none 7 sellerInW
    sellerOutW sellerPinW [mkUtxo 3 5000 7] runW pW (by decide) (by decide) (by decide)
    (by decide) (by decide) (by decide) (by decide) (by decide) (by decide) (by decide)
    (by decide) (by decide) rfl

/-- Claim C4: in the assembled purchase transaction, input 1 copies the previous
    outpoint, script_sig and sequence of input 0 of the extracted seller
    transaction (with a fresh empty witness), the PSBT metadata of input 1 is
    the seller PSBT input 0 unmodified, and output 1 equals output 0 of the
    transaction the seller originally signed. -/
theorem claim_C4 (env : Env) (seller_psbt : Psbt) (inscription_tx_out : TxOut)
    (dummy_utxo : ListUnspentResultEntry) (bcast : Option Transaction)
    (buyer_address : Nat) (seller_in : TxIn) (seller_out : TxOut)
    (seller_psbt_in : PsbtInput) (sel : List ListUnspentResultEntry)
    (run : BuyerRun) (p : Psbt)
    (hbal : ¬ env.balance < PRICE)
    (hlen : ¬ (get_buyer_spendable_utxos env).length = 0)
    (hdummy : retrieve_dummy_utxo env (get_buyer_spendable_utxos env) =
      some (dummy_utxo, bcast))
    (haddr : dummy_utxo.address = some buyer_address)
    (hin : seller_psbt.extract_tx.input.head? = some seller_in)
    (hout : seller_psbt.extract_tx.output.head? = some seller_out)
    (hpin : seller_psbt.inputs.head? = some seller_psbt_in)
    (hsig : seller_in.script_sig = 0)
    (hsel : sel = select_payment required_payment_value
      (get_buyer_spendable_utxos env).reverse 0)
    (hpay : required_payment_value ≤ sumAmounts sel)
    (hrun : create_buyer_psbt env seller_psbt inscription_tx_out = some run)
    (hp : run.outcome = BuyerOutcome.assembled p) :
    p.unsigned_tx.input[1]? =
      some { previous_output := seller_in.previous_output,
             script_sig := seller_in.script_sig,
             sequence := seller_in.sequence,
             witness := [] }
    ∧ p.inputs[1]? = some seller_psbt_in
    ∧ p.unsigned_tx.output[1]? = seller_psbt.unsigned_tx.output.head? := by
  rw [create_buyer_psbt_assembled env seller_psbt inscription_tx_out dummy_utxo bcast
    buyer_address seller_in seller_out seller_psbt_in sel hbal hlen hdummy haddr hin
    hout hpin hsig hsel hpay] at hrun
  have hrun2 := Option.some_inj.mp hrun
  subst hrun2
  injection hp with hP
  subst hP
  refine ⟨?_, ?_, ?_⟩
  · simp [purchaseTx]
  · apply assembledPsbtInputs_one
    simp [purchaseTx]
  · have hout2 : seller_psbt.unsigned_tx.output.head? = some seller_out := hout
    rw [hout2]
    simp [purchaseTx]

/-- Witness for claim C4 at the envC6 scenario. -/
theorem claim_C4_witness :
    pW.unsigned_tx.input[1]? =
      some { previous_output := sellerInW.previous_output,
             script_sig := sellerInW.script_sig,
             sequence := sellerInW.sequence,
             witness := [] }
    ∧ pW.inputs[1]? = some sellerPinW
    ∧ pW.unsigned_tx.output[1]? = sellerPsbtW.unsigned_tx.output.head? :=
  claim_C4 envC6 sellerPsbtW inscriptionOutW (mkUtxo 1 500 7) none 7 sellerInW
    sellerOutW sellerPinW [mkUtxo 3 5000 7] runW pW (by decide) (by decide) (by decide)
    (by decide) (by decide) (by decide) (by decide) (by decide) (by decide) (by decide)
    (by decide) rfl

/-- Claim C10: on the creation path (no dust candidate), retrieve_dummy_utxo
    panics (modelled as none) exactly when the smallest candidate has value
    below 1000 + 258 (the change subtraction underflows) or the re-queried
    spendable set contains no output of value at most 1000 (indexing the
    filtered list at 0 fails); neither condition is checked. -/
theorem claim_C10 (env : Env) (utxos : List ListUnspentResultEntry)
    (u0 : ListUnspentResultEntry) (a : Nat)
    (hfil : utxos.filter (fun u => u.amount ≤ 1000) = [])
    (hhead : utxos.head? = some u0)
    (haddr : u0.address = some a) :
    retrieve_dummy_utxo env utxos = none ↔
      (u0.amount < 1000 + 258
       ∨ (sortByAmount env.unspentAfterDummy).filter (fun u => u.amount ≤ 1000) = []) := by
  rw [retrieve_dummy_utxo_creation env utxos u0 a hfil hhead haddr]
  by_cases hv : u0.amount < 1000 + 258
  · simp [hv]
  · simp only [hv, if_false, false_or]
    cases hh : ((sortByAmount env.unspentAfterDummy).filter
        (fun u => u.amount ≤ 1000)).head? with
    | none => simp [List.head?_eq_none_iff.mp hh]
    | some d =>
      constructor
      · intro hcontra
        simp at hcontra
      · intro hcontra
        rw [hcontra] at hh
        simp at hh

/-- Fixture environment for the C10 witness: a single 1100-satoshi candidate
    (no dust, and 1100 < 1258 forces the underflow panic). -/
def envC10 : Env := envBase [mkUtxo 4 1100 7]

/-- Witness for claim C10: with a single 1100-satoshi candidate the creation
    path panics via the underflow condition. -/
theorem claim_C10_witness :
    (retrieve_dummy_utxo envC10 (get_buyer_spendable_utxos envC10) = none ↔
      ((mkUtxo 4 1100 7).amount < 1000 + 258
       ∨ (sortByAmount envC10.unspentAfterDummy).filter (fun u => u.amount ≤ 1000) = []))
    ∧ retrieve_dummy_utxo envC10 (get_buyer_spendable_utxos envC10) = none :=
  ⟨claim_C10 envC10 (get_buyer_spendable_utxos envC10) (mkUtxo 4 1100 7) 7
      (by decide) (by decide) (by decide),
   by decide⟩

/-- Fixture environment for the C7 counterexample: one 2000-satoshi candidate
    (no dust), and a post-broadcast re-query that contains a 600-satoshi utxo
    classified as an inscription holder, which the unfiltered re-query picks. -/
def envC7 : Env :=
  { envBase [mkUtxo 1 2000 7] with
    inscriptionOracle := fun o => o.txid == 9,
    unspentAfterDummy := [mkUtxo 9 600 7, mkUtxo 8 1000 7] }

/-- Counterexample to claim C7 as stated: on the creation path the re-queried
    dust list is not inscription-filtered, so retrieve_dummy_utxo returns an
    output that the oracle classifies as an inscription holder. -/
theorem claim_C7_counterexample :
    retrieve_dummy_utxo envC7 (get_buyer_spendable_utxos envC7) =
      some (mkUtxo 9 600 7, some (dummyCreationTx (mkUtxo 1 2000 7) 7))
    ∧ is_utxo_inscription envC7 (mkUtxo 9 600 7) = true :=
  ⟨by decide, by decide⟩

/-- Claim C7 (amended): retrieve_dummy_utxo always returns an output of value at
    most 1000, and when a dust candidate already exists it returns one of the
    given candidates and broadcasts no transaction (so repeated invocations in
    that state are idempotent); only on the creation path, whose re-query is not
    inscription-filtered, can the returned output be an inscription holder. -/
theorem claim_C7_amended (env : Env) (utxos : List ListUnspentResultEntry)
    (d : ListUnspentResultEntry) (b : Option Transaction)
    (h : retrieve_dummy_utxo env utxos = some (d, b)) :
    d.amount ≤ 1000
    ∧ (utxos.filter (fun u => u.amount ≤ 1000) ≠ [] → b = none ∧ d ∈ utxos) := by
  by_cases hfil : utxos.filter (fun u => u.amount ≤ 1000) = []
  · refine ⟨?_, fun hcontra => absurd hfil hcontra⟩
    cases hh : utxos.head? with
    | none => simp [retrieve_dummy_utxo, hfil, hh] at h
    | some u0 =>
      cases ha : u0.address with
      | none => simp [retrieve_dummy_utxo, hfil, hh, ha] at h
      | some a =>
        rw [retrieve_dummy_utxo_creation env utxos u0 a hfil hh ha] at h
        by_cases hv : u0.amount < 1000 + 258
        · rw [if_pos hv] at h
          simp at h
        · rw [if_neg hv] at h
          cases hd2 : ((sortByAmount env.unspentAfterDummy).filter
              (fun u => u.amount ≤ 1000)).head? with
          | none =>
            rw [hd2] at h
            simp at h
          | some d2 =>
            rw [hd2] at h
            simp only [Option.map_some', Option.some_inj, Prod.mk.injEq] at h
            obtain ⟨rfl, _⟩ := h
            have hmem : d2 ∈ (sortByAmount env.unspentAfterDummy).filter
                (fun u => u.amount ≤ 1000) :=
              List.mem_of_mem_head? (Option.mem_def.mpr hd2)
            simpa using (List.mem_filter.mp hmem).2
  · cases hd0 : (utxos.filter (fun u => u.amount ≤ 1000)).head? with
    | none => exact absurd (List.head?_eq_none_iff.mp hd0) hfil
    | some d0 =>
      rw [retrieve_dummy_utxo_dust env utxos d0 hd0] at h
      simp only [Option.some_inj, Prod.mk.injEq] at h
      obtain ⟨rfl, hb⟩ := h
      have hmem : d0 ∈ utxos.filter (fun u => u.amount ≤ 1000) :=
        List.mem_of_mem_head? (Option.mem_def.mpr hd0)
      have hm2 := List.mem_filter.mp hmem
      exact ⟨by simpa using hm2.2, fun _ => ⟨hb.symm, hm2.1⟩⟩

/-- Fixture environment for the C7 witness: an 800-satoshi dust candidate
    already exists. -/
def envC7W : Env := envBase [mkUtxo 1 800 7, mkUtxo 2 3000 7]

/-- Witness for claim C7 at a state that already holds a dust candidate. -/
theorem claim_C7_witness :
    (mkUtxo 1 800 7).amount ≤ 1000
    ∧ ((get_buyer_spendable_utxos envC7W).filter (fun u => u.amount ≤ 1000) ≠ [] →
        (none : Option Transaction) = none
        ∧ mkUtxo 1 800 7 ∈ get_buyer_spendable_utxos envC7W) :=
  claim_C7_amended envC7W (get_buyer_spendable_utxos envC7W) (mkUtxo 1 800 7) none
    (by decide)

/-- Fixture environment for the C5 counterexample: candidates of 2000 and 5000
    satoshi (no dust), and a re-query holding the created 1000-satoshi output. -/
def envC5 : Env :=
  { envBase [mkUtxo 55 5000 7, mkUtxo 21 2000 7] with
    unspentAfterDummy := [mkUtxo 30 1000 7] }

/-- Counterexample to claim C5 as stated: the separator-creation transaction is
    funded from the smallest available spendable output (the 2000-satoshi utxo
    at outpoint 21:0), not from the largest (the 5000-satoshi utxo at 55:0). -/
theorem claim_C5_counterexample :
    retrieve_dummy_utxo envC5 (get_buyer_spendable_utxos envC5) =
      some (mkUtxo 30 1000 7, some (dummyCreationTx (mkUtxo 21 2000 7) 7))
    ∧ (dummyCreationTx (mkUtxo 21 2000 7) 7).input.map (fun i => i.previous_output) =
        [{ txid := 21, vout := 0 }]
    ∧ ({ txid := 55, vout := 0 } : OutPoint) ∉
        (dummyCreationTx (mkUtxo 21 2000 7) 7).input.map (fun i => i.previous_output)
    ∧ mkUtxo 55 5000 7 ∈ get_buyer_spendable_utxos envC5
    ∧ (mkUtxo 21 2000 7).amount < (mkUtxo 55 5000 7).amount :=
  ⟨by decide, by decide, by decide, by decide, by decide⟩

/-- Claim C5 (amended): when no spendable output has value at most 1000,
    retrieve_dummy_utxo funds the separator-creation transaction from the
    buyer's smallest available spendable output (the head of the
    ascending-sorted candidate list), producing exactly two outputs, a dust
    output of 1000 and a change output of that source value minus 1000 minus
    the fixed 258 overhead, both paid to that candidate's own address. -/
theorem claim_C5_amended (env : Env) (utxos : List ListUnspentResultEntry)
    (u0 : ListUnspentResultEntry) (a : Nat)
    (hs : List.Pairwise (fun x y : ListUnspentResultEntry => x.amount ≤ y.amount) utxos)
    (hfil : utxos.filter (fun u => u.amount ≤ 1000) = [])
    (hhead : utxos.head? = some u0)
    (haddr : u0.address = some a)
    (hval : ¬ u0.amount < 1000 + 258) :
    (∀ u ∈ utxos, u0.amount ≤ u.amount)
    ∧ (dummyCreationTx u0 a).input.map (fun i => i.previous_output) =
        [{ txid := u0.txid, vout := u0.vout }]
    ∧ (dummyCreationTx u0 a).output =
        [{ value := 1000, script_pubkey := addressScript a },
         { value := u0.amount - 1000 - 258, script_pubkey := addressScript a }]
    ∧ retrieve_dummy_utxo env utxos =
        ((sortByAmount env.unspentAfterDummy).filter (fun u => u.amount ≤ 1000)).head?.map
          (fun d => (d, some (dummyCreationTx u0 a))) := by
  refine ⟨?_, rfl, rfl, ?_⟩
  · intro u hu
    cases utxos with
    | nil => simp at hhead
    | cons x t =>
      have hx : x = u0 := by simpa using hhead
      subst hx
      rcases List.mem_cons.mp hu with rfl | hu2
      · exact Nat.le_refl _
      · exact List.rel_of_pairwise_cons hs hu2
  · rw [retrieve_dummy_utxo_creation env utxos u0 a hfil hhead haddr, if_neg hval]

/-- Fixture environment for the C5 witness: candidates of 1300 and 2600 satoshi,
    re-query holding a 900-satoshi output. -/
def envC5W : Env :=
  { envBase [mkUtxo 41 1300 7, mkUtxo 43 2600 7] with
    unspentAfterDummy := [mkUtxo 42 900 7] }

/-- Witness for claim C5 at a concrete creation-path environment. -/
theorem claim_C5_witness :
    (∀ u ∈ get_buyer_spendable_utxos envC5W, (mkUtxo 41 1300 7).amount ≤ u.amount)
    ∧ (dummyCreationTx (mkUtxo 41 1300 7) 7).input.map (fun i => i.previous_output) =
        [{ txid := (mkUtxo 41 1300 7).txid, vout := (mkUtxo 41 1300 7).vout }]
    ∧ (dummyCreationTx (mkUtxo 41 1300 7) 7).output =
        [{ value := 1000, script_pubkey := addressScript 7 },
         { value := (mkUtxo 41 1300 7).amount - 1000 - 258,
           script_pubkey := addressScript 7 }]
    ∧ retrieve_dummy_utxo envC5W (get_buyer_spendable_utxos envC5W) =
        ((sortByAmount envC5W.unspentAfterDummy).filter
          (fun u => u.amount ≤ 1000)).head?.map
          (fun d => (d, some (dummyCreationTx (mkUtxo 41 1300 7) 7))) :=
  claim_C5_amended envC5W (get_buyer_spendable_utxos envC5W) (mkUtxo 41 1300 7) 7
    (by decide) (by decide) (by decide) (by decide) (by decide)

/-- Projection: previous outpoints of the assembled purchase transaction of a
    buyer run, when one was assembled. -/
def runInputOutpoints (r : Option BuyerRun) : Option (List OutPoint) :=
  match r with
  | some u =>
    match u.outcome with
    | BuyerOutcome.assembled p =>
      some (p.unsigned_tx.input.map (fun i => i.previous_output))
    | BuyerOutcome.abandoned => none
  | none => none

/-- Fixture environment for the C9 counterexample: a 1000-satoshi dust candidate
    (the chosen separator) plus a 4000-satoshi candidate, whose sum is needed to
    reach the threshold, so the selection loop re-consumes the separator. -/
def envC9 : Env := envBase [mkUtxo 1 1000 7, mkUtxo 2 4000 7]

/-- Counterexample to claim C9 as stated: the separator outpoint 1:0 occupies
    input 0 and reappears as the last payment input of the assembled purchase
    transaction, so the inputs are not pairwise distinct. -/
theorem claim_C9_counterexample :
    runInputOutpoints (create_buyer_psbt envC9 sellerPsbtW inscriptionOutW) =
      some [{ txid := 1, vout := 0 }, { txid := 100, vout := 3 },
            { txid := 2, vout := 0 }, { txid := 1, vout := 0 }]
    ∧ ¬ ([{ txid := 1, vout := 0 }, { txid := 100, vout := 3 },
          { txid := 2, vout := 0 }, { txid := 1, vout := 0 }] : List OutPoint).Nodup :=
  ⟨by decide, by decide⟩

/-- Claim C9 (amended): when a dust candidate exists, the candidate outpoints
    are pairwise distinct, the seller outpoint is none of them, and the payment
    selection stops before exhausting the reversed candidate list, the inputs of
    the assembled purchase transaction reference pairwise distinct outpoints;
    when selection consumes the whole list, the separator (the smallest
    candidate) reappears as the last payment input. -/
theorem claim_C9_amended (env : Env) (seller_psbt : Psbt) (inscription_tx_out : TxOut)
    (dummy_utxo : ListUnspentResultEntry) (bcast : Option Transaction)
    (buyer_address : Nat) (seller_in : TxIn) (seller_out : TxOut)
    (seller_psbt_in : PsbtInput) (sel : List ListUnspentResultEntry)
    (run : BuyerRun) (p : Psbt)
    (hbal : ¬ env.balance < PRICE)
    (hlen : ¬ (get_buyer_spendable_utxos env).length = 0)
    (hdummy : retrieve_dummy_utxo env (get_buyer_spendable_utxos env) =
      some (dummy_utxo, bcast))
    (haddr : dummy_utxo.address = some buyer_address)
    (hin : seller_psbt.extract_tx.input.head? = some seller_in)
    (hout : seller_psbt.extract_tx.output.head? = some seller_out)
    (hpin : seller_psbt.inputs.head? = some seller_psbt_in)
    (hsig : seller_in.script_sig = 0)
    (hsel : sel = select_payment required_payment_value
      (get_buyer_spendable_utxos env).reverse 0)
    (hpay : required_payment_value ≤ sumAmounts sel)
    (hdust : (get_buyer_spendable_utxos env).filter (fun u => u.amount ≤ 1000) ≠ [])
    (hnodup : ((get_buyer_spendable_utxos env).map
        (fun u => ({ txid := u.txid, vout := u.vout } : OutPoint))).Nodup)
    (hseller : seller_in.previous_output ∉
        (get_buyer_spendable_utxos env).map
          (fun u => ({ txid := u.txid, vout := u.vout } : OutPoint)))
    (hproper : sel ≠ (get_buyer_spendable_utxos env).reverse)
    (hrun : create_buyer_psbt env seller_psbt inscription_tx_out = some run)
    (hp : run.outcome = BuyerOutcome.assembled p) :
    (p.unsigned_tx.input.map (fun i => i.previous_output)).Nodup := by
  rw [create_buyer_psbt_assembled env seller_psbt inscription_tx_out dummy_utxo bcast
    buyer_address seller_in seller_out seller_psbt_in sel hbal hlen hdummy haddr hin
    hout hpin hsig hsel hpay] at hrun
  have hrun2 := Option.some_inj.mp hrun
  subst hrun2
  injection hp with hP
  subst hP
  have hmap : (purchaseTx env.marketPlaceAddress dummy_utxo buyer_address seller_in
        seller_out inscription_tx_out sel (sumAmounts sel)).input.map
        (fun i => i.previous_output)
      = ({ txid := dummy_utxo.txid, vout := dummy_utxo.vout } : OutPoint)
        :: seller_in.previous_output
        :: sel.map (fun u => ({ txid := u.txid, vout := u.vout } : OutPoint)) := by
    simp [purchaseTx, paymentTxIn]
  rw [hmap]
  have hfh := filter_dust_head_of_sorted (get_buyer_spendable_utxos env)
    (pairwise_sorted_amounts env) hdust
  have hdu : (get_buyer_spendable_utxos env).head? = some dummy_utxo := by
    cases hd0 : ((get_buyer_spendable_utxos env).filter
        (fun u => u.amount ≤ 1000)).head? with
    | none => exact absurd (List.head?_eq_none_iff.mp hd0) hdust
    | some d0 =>
      have hre := retrieve_dummy_utxo_dust env (get_buyer_spendable_utxos env) d0 hd0
      have h2 : dummy_utxo = d0 ∧ bcast = none := by
        have h3 := hdummy.symm.trans hre
        simpa using h3
      rw [h2.1, ← hfh]
      exact hd0
  have htake : ((get_buyer_spendable_utxos env).reverse).take sel.length = sel := by
    rw [hsel]
    exact select_payment_take _ _ _
  have hsplit : sel ++ ((get_buyer_spendable_utxos env).reverse).drop sel.length =
      (get_buyer_spendable_utxos env).reverse := by
    conv_rhs => rw [← List.take_append_drop sel.length
      (get_buyer_spendable_utxos env).reverse]
    rw [htake]
  have htne : ((get_buyer_spendable_utxos env).reverse).drop sel.length ≠ [] := by
    intro h0
    apply hproper
    rw [← hsplit, h0, List.append_nil]
  have hlast : ((get_buyer_spendable_utxos env).reverse).getLast? = some dummy_utxo := by
    rw [List.getLast?_reverse]
    exact hdu
  have hdl : (((get_buyer_spendable_utxos env).reverse).drop sel.length).getLast? =
      some dummy_utxo := by
    rw [← hsplit, List.getLast?_append] at hlast
    cases hgl : (((get_buyer_spendable_utxos env).reverse).drop sel.length).getLast? with
    | none =>
      have hd9 := List.getLast?_isSome.mpr htne
      rw [hgl] at hd9
      simp at hd9
    | some x =>
      rw [hgl] at hlast
      have hx : x = dummy_utxo := by simpa using hlast
      rw [hx]
  have hdmem : dummy_utxo ∈ ((get_buyer_spendable_utxos env).reverse).drop sel.length := by
    have h5 := List.getLast?_eq_getLast _ htne
    rw [h5] at hdl
    have h6 := Option.some_inj.mp hdl
    rw [← h6]
    exact List.getLast_mem htne
  have hnr : (((get_buyer_spendable_utxos env).reverse).map
      (fun u => ({ txid := u.txid, vout := u.vout } : OutPoint))).Nodup := by
    rw [List.map_reverse, List.nodup_reverse]
    exact hnodup
  have hsplitmap : (sel.map (fun u => ({ txid := u.txid, vout := u.vout } : OutPoint)))
      ++ ((((get_buyer_spendable_utxos env).reverse).drop sel.length).map
          (fun u => ({ txid := u.txid, vout := u.vout } : OutPoint)))
      = (((get_buyer_spendable_utxos env).reverse).map
          (fun u => ({ txid := u.txid, vout := u.vout } : OutPoint))) := by
    rw [← List.map_append, hsplit]
  have hna : ((sel.map (fun u => ({ txid := u.txid, vout := u.vout } : OutPoint)))
      ++ ((((get_buyer_spendable_utxos env).reverse).drop sel.length).map
          (fun u => ({ txid := u.txid, vout := u.vout } : OutPoint)))).Nodup := by
    rw [hsplitmap]
    exact hnr
  obtain ⟨hn1, hn2, hdisj⟩ := List.nodup_append.mp hna
  have hdopnot : ({ txid := dummy_utxo.txid, vout := dummy_utxo.vout } : OutPoint) ∉
      sel.map (fun u => ({ txid := u.txid, vout := u.vout } : OutPoint)) := by
    intro hmem
    exact (List.disjoint_left.mp hdisj hmem)
      (List.mem_map.mpr ⟨dummy_utxo, hdmem, rfl⟩)
  have hselsub : ∀ x ∈ sel.map (fun u => ({ txid := u.txid, vout := u.vout } : OutPoint)),
      x ∈ (get_buyer_spendable_utxos env).map
        (fun u => ({ txid := u.txid, vout := u.vout } : OutPoint)) := by
    intro x hx
    have h7 : x ∈ (((get_buyer_spendable_utxos env).reverse).map
        (fun u => ({ txid := u.txid, vout := u.vout } : OutPoint))) := by
      rw [← hsplitmap]
      exact List.mem_append.mpr (Or.inl hx)
    rw [List.map_reverse, List.mem_reverse] at h7
    exact h7
  have hsnot : seller_in.previous_output ∉
      sel.map (fun u => ({ txid := u.txid, vout := u.vout } : OutPoint)) :=
    fun hx => hseller (hselsub _ hx)
  have hdmemS : ({ txid := dummy_utxo.txid, vout := dummy_utxo.vout } : OutPoint) ∈
      (get_buyer_spendable_utxos env).map
        (fun u => ({ txid := u.txid, vout := u.vout } : OutPoint)) :=
    List.mem_map.mpr ⟨dummy_utxo, List.mem_of_mem_head? (Option.mem_def.mpr hdu), rfl⟩
  have hdne : ({ txid := dummy_utxo.txid, vout := dummy_utxo.vout } : OutPoint) ≠
      seller_in.previous_output := by
    intro he
    rw [he] at hdmemS
    exact hseller hdmemS
  refine List.nodup_cons.mpr ⟨?_, List.nodup_cons.mpr ⟨hsnot, hn1⟩⟩
  intro hmem0
  rcases List.mem_cons.mp hmem0 with he | hmem
  · exact hdne he
  · exact hdopnot hmem

/-- Fixture environment for the C9 witness: a 900-satoshi dust separator and a
    5000-satoshi candidate that alone covers the threshold, so selection stops
    before reaching the separator. -/
def envC9W : Env := envBase [mkUtxo 1 900 7, mkUtxo 2 5000 7]

/-- Fixture: the PSBT assembled by create_buyer_psbt in the envC9W scenario. -/
def pC9W : Psbt :=
  { unsigned_tx := purchaseTx 50 (mkUtxo 1 900 7) 7 sellerInW sellerOutW inscriptionOutW
      [mkUtxo 2 5000 7] (sumAmounts [mkUtxo 2 5000 7]),
    inputs := assembledPsbtInputs envC9W (mkUtxo 1 900 7) sellerPinW [mkUtxo 2 5000 7]
      ((purchaseTx 50 (mkUtxo 1 900 7) 7 sellerInW sellerOutW inscriptionOutW
        [mkUtxo 2 5000 7] (sumAmounts [mkUtxo 2 5000 7])).input.map
        (fun _ => PsbtInput.empty)) }

/-- Fixture: the run of create_buyer_psbt in the envC9W scenario. -/
def runC9W : BuyerRun := { outcome := BuyerOutcome.assembled pC9W, dummyBroadcast := none }

/-- Witness for the amended claim C9 at the envC9W scenario. -/
theorem claim_C9_witness :
    (pC9W.unsigned_tx.input.map (fun i => i.previous_output)).Nodup :=
  claim_C9_amended envC9W sellerPsbtW inscriptionOutW (mkUtxo 1 900 7) none 7 sellerInW
    sellerOutW sellerPinW [mkUtxo 2 5000 7] runC9W pC9W (by decide) (by decide)
    (by decide) (by decide) (by decide) (by decide) (by decide) (by decide) (by decide)
    (by decide) (by decide) (by decide) (by decide) (by decide) (by decide) rfl

/-- Fixture environment for the C1 bug exhibit: candidates of 500 and 3000
    satoshi, total 3500, above the price 1900 but below the threshold 4372. -/
def envC1 : Env := envBase [mkUtxo 1 500 7, mkUtxo 2 3000 7]

/-- Claim C1 (code bug exhibit): with payment total 3500, which is at least the
    price but below the required threshold, create_buyer_psbt does not reject
    the trade; it reaches the change computation 3500 - 4372, whose u64
    underflow is modelled as none (a panic in debug builds, a wrapped
    astronomically large output value in release builds). -/
theorem claim_C1 :
    PRICE ≤ sumAmounts (select_payment required_payment_value
      (get_buyer_spendable_utxos envC1).reverse 0)
    ∧ sumAmounts (select_payment required_payment_value
        (get_buyer_spendable_utxos envC1).reverse 0) < required_payment_value
    ∧ create_buyer_psbt envC1 sellerPsbtW inscriptionOutW = none :=
  ⟨by decide, by decide, by decide⟩

/-- Fixture environment for the C2 bug exhibit: the specification scenario with
    candidates of 500 and 3000 satoshi and sufficient wallet balance. -/
def envC2 : Env := { envBase [mkUtxo 11 500 7, mkUtxo 12 3000 7] with balance := 5000 }

/-- Claim C2 (code bug exhibit): in the candidates-[500, 3000] scenario the
    specification requires abandonment with the empty sentinel, but
    create_buyer_psbt neither abandons nor assembles: the run ends in the
    modelled u64 underflow (none) at the change computation. -/
theorem claim_C2 :
    create_buyer_psbt envC2 sellerPsbtW inscriptionOutW = none
    ∧ create_buyer_psbt envC2 sellerPsbtW inscriptionOutW ≠
        some { outcome := BuyerOutcome.abandoned, dummyBroadcast := none } :=
  ⟨by decide, by decide⟩

end TestPsbt
